import Mathlib

/-!
Shallow embedding of the graphql-gateway repository (Go) in Lean 4, together
with theorems settling the frozen claims C1..C10 about its specification.

The embedding translates the Go source:
  executor.go  (src/unnamed/part_002): executorFindInsertionPoints,
    executorExtractValue, executorInsertObject, executorGetPointData,
    executorBuildQuery, executeStep (its sequential, pure fragments)
  gateway.go: Gateway.Execute, New, fieldURLs, FieldURLMap
  schema.go: SchemaQueryer.introspectSchema / introspectType and friends
  http.go  (src/unnamed/part_004): Gateway.GraphQLHandler (GET branch)

Go maps of JSON-like values are modelled as association lists (first match
wins on lookup, set replaces the existing binding), Go slices as Lean lists,
fallible Go code as Except String, and Go panics (out-of-range indexing,
nil-map writes, nil dereferences) as explicit Except errors whose messages
name the panic.  Recursions that Go performs over dynamic JSON values take a
fuel parameter; every claim is settled at fuel values that are never
exhausted on the inputs involved.
-/

/-- A dynamic JSON-like value, the model of Go interface values held in a
map[string]interface. -/
inductive JSON where
  | null
  | str (s : String)
  | num (n : Int)
  | bool (b : Bool)
  | arr (elems : List JSON)
  | obj (fields : List (String × JSON))
deriving Repr

/-- Lookup in an association list modelling a Go map; first match wins. -/
def lookupJ : List (String × JSON) → String → Option JSON
  | [], _ => none
  | (k, v) :: rest, key => if k == key then some v else lookupJ rest key

/-- Assignment into an association list modelling a Go map: replace the
binding if the key is present, append it otherwise. -/
def mapSet : List (String × JSON) → String → JSON → List (String × JSON)
  | [], k, v => [(k, v)]
  | (k1, v1) :: rest, k, v =>
    if k1 == k then (k, v) :: rest else (k1, v1) :: mapSet rest k v

/-- Go fmt.Sprintf with the %v verb, on the dynamic values that reach it in
this code (ids are strings or integers in the repository and its tests); a
nil interface prints as the Go literal. -/
def goFormat : JSON → String
  | .null => "<nil>"
  | .str s => s
  | .num n => toString n
  | .bool b => if b then "true" else "false"
  | .arr _ => "<slice>"
  | .obj _ => "<map>"

/-- Go %v applied to the result of a map lookup: a missing key yields the
nil interface value. -/
def goFormatOpt : Option JSON → String
  | none => goFormat JSON.null
  | some v => goFormat v

/-- The vektah gqlparser ast.Type as the executor consumes it: only whether
the type is a list (Elem non-nil) and the named element matter. -/
inductive AstType where
  | named (name : String)
  | listOf (elem : AstType)
deriving Repr

/-- The Elem pointer of ast.Type: non-nil exactly for list types. -/
def AstType.elemType : AstType → Option AstType
  | .named _ => none
  | .listOf e => some e

/-- The ast.Value kinds that the executor constructs. -/
inductive ValueKind where
  | stringValue
  | intValue
  | booleanValue
deriving Repr, DecidableEq

/-- The ast.Value of an argument: a kind and the raw text. -/
structure AstValue where
  kind : ValueKind
  raw : String
deriving Repr

/-- An ast.Argument: a name and a value. -/
structure Argument where
  name : String
  value : AstValue
deriving Repr

/-- An ast.Selection: a field (with alias, name, arguments, optional
definition carrying its type, and a sub-selection), an inline fragment, or a
fragment spread.  The Definition pointer of a field may be nil in Go, hence
the Option. -/
inductive Selection where
  | field (aliasName name : String) (arguments : List Argument)
      (defType : Option AstType) (selectionSet : List Selection)
  | inlineFragment (typeCondition : String) (selectionSet : List Selection)
  | fragmentSpread (fragmentName : String)
deriving Repr

/-- Modelled from the spec: selectedFields (defined in the repository's
plan.go, which is not among the provided sources) extracts the plain fields
of a selection set, dropping fragments; every caller in the provided sources
uses it only this way. -/
def selectedFields (source : List Selection) : List Selection :=
  source.filter fun s =>
    match s with
    | .field _ _ _ _ _ => true
    | _ => false

/-- The Alias of a selection (Go zero value for non-fields). -/
def Selection.aliasName : Selection → String
  | .field a _ _ _ _ => a
  | _ => ""

/-- The Name of a selection (Go zero value for non-fields). -/
def Selection.nameOf : Selection → String
  | .field _ n _ _ _ => n
  | .inlineFragment _ _ => ""
  | .fragmentSpread n => n

/-- The SelectionSet of a selection. -/
def Selection.selectionSet : Selection → List Selection
  | .field _ _ _ _ s => s
  | .inlineFragment _ s => s
  | .fragmentSpread _ => []

/-- The Definition.Type of a field selection (none models a nil Definition
pointer). -/
def Selection.defType : Selection → Option AstType
  | .field _ _ _ t _ => t
  | _ => none

/-- The Arguments of a field selection. -/
def Selection.argumentsOf : Selection → List Argument
  | .field _ _ args _ _ => args
  | _ => []

/-- ArgumentList.ForName of the gqlparser ast: first argument with the given
name, if any. -/
def argumentsForName (args : List Argument) (name : String) : Option Argument :=
  args.find? fun a => a.name == name

/-- The extractorPointData struct of executor.go: a decomposed insertion
point segment field:index#id. -/
structure ExtractorPointData where
  field : String
  index : Int
  id : String
deriving Repr, DecidableEq

/-- Splitting a character list at every occurrence of a separator, carrying
the characters of the current piece in reverse. -/
def splitOnCharAux (c : Char) : List Char → List Char → List (List Char)
  | [], acc => [acc.reverse]
  | x :: xs, acc =>
    if x == c then acc.reverse :: splitOnCharAux c xs []
    else splitOnCharAux c xs (x :: acc)

/-- Go strings.Split with a one-character separator (the only separators the
executor uses are the hash sign and the colon), written over the character
list of the string so that it evaluates by kernel reduction. -/
def strSplitOnChar (c : Char) (s : String) : List String :=
  (splitOnCharAux c s.data []).map String.mk

/-- The numeric value of a decimal digit character, none otherwise. -/
def charDigit? (ch : Char) : Option Nat :=
  if 48 ≤ ch.toNat ∧ ch.toNat ≤ 57 then some (ch.toNat - 48) else none

/-- Decimal digits to a natural number; none on any non-digit. -/
def digitsToNatAux : List Char → Nat → Option Nat
  | [], acc => some acc
  | ch :: rest, acc =>
    match charDigit? ch with
    | none => none
    | some d => digitsToNatAux rest (acc * 10 + d)

/-- Go strconv.ParseInt on the decimal integers the executor produces and
consumes (indices written by Sprintf with %v): an optional sign followed by
at least one decimal digit; everything else is a parse error.  The base
auto-detection of ParseInt with base 0 is irrelevant to those inputs. -/
def strToInt? (s : String) : Option Int :=
  match s.data with
  | [] => none
  | ch :: rest =>
    if ch == '-' then
      match rest with
      | [] => none
      | _ => (digitsToNatAux rest 0).map (fun n => -(n : Int))
    else if ch == '+' then
      match rest with
      | [] => none
      | _ => (digitsToNatAux rest 0).map (fun n => (n : Int))
    else (digitsToNatAux s.data 0).map (fun n => (n : Int))

/-- executorGetPointData (executor.go lines 678-710): points come in the
form field:index#id where each of index and id is optional; index -1 and id
empty mark the absent parts.  strconv.ParseInt failures surface as errors. -/
def executorGetPointData (point : String) : Except String ExtractorPointData := do
  let mut fieldStr := point
  let mut index : Int := -1
  let mut id := ""
  if (strSplitOnChar '#' point).length > 1 then
    let idData := strSplitOnChar '#' point
    if idData.length == 2 then
      id := idData[1]!
    fieldStr := idData[0]!
  if (strSplitOnChar ':' fieldStr).length > 1 then
    let indexData := strSplitOnChar ':' fieldStr
    match strToInt? indexData[1]! with
    | none => throw ("strconv.ParseInt: parsing " ++ indexData[1]! ++ ": invalid syntax")
    | some indexValue =>
      index := indexValue
      fieldStr := indexData[0]!
  return { field := fieldStr, index := index, id := id }

/-- A variable definition of the plan document (only the variable name is
consumed by the embedded code). -/
structure VariableDefinition where
  varName : String
deriving Repr

/-- An ast.VariableDefinitionList as the executor builds it: the entries are
results of VariableDefinitionList.ForName and may be nil in Go. -/
abbrev VariableDefinitionList := List (Option VariableDefinition)

/-- VariableDefinitionList.ForName: the first definition with the given
variable name, nil when absent. -/
def variableDefinitionListForName (defs : List VariableDefinition) (name : String) :
    Option VariableDefinition :=
  defs.find? fun d => d.varName == name

/-- The operation kind of an ast.OperationDefinition. -/
inductive OperationType where
  | query
  | mutation
deriving Repr, DecidableEq

/-- An ast.OperationDefinition as executorBuildQuery constructs it. -/
structure OperationDefinition where
  operation : OperationType
  variableDefinitions : VariableDefinitionList
  selectionSet : List Selection
deriving Repr

/-- executorBuildQuery (executor.go lines 712-761): a top-level Query keeps
its selection set; any other parent type is wrapped in the node pattern
node(id: parentID) with an inline fragment on the parent type. -/
def executorBuildQuery (parentType parentID : String)
    (variableDefs : VariableDefinitionList) (selectionSet : List Selection) :
    OperationDefinition :=
  if parentType == "Query" then
    { operation := .query, variableDefinitions := variableDefs, selectionSet := selectionSet }
  else
    { operation := .query
      variableDefinitions := variableDefs
      selectionSet :=
        [Selection.field "" "node"
          [{ name := "id", value := { kind := .stringValue, raw := parentID } }]
          none
          [Selection.inlineFragment parentType selectionSet]] }

/-- The per-branch body of the list case of executorFindInsertionPoints
(executor.go lines 419-437): when we are at the second-to-last target point
the entry id is appended to the entry point; the entryPoint variable is
shared across the branch iterations, so the id suffix accumulates from one
branch to the next exactly as in the source. -/
def branchSetWithEntry (isSecondLast : Bool) (resultEntry : List (String × JSON)) :
    List (List String) → String → Except String (List (List String))
  | [], _ => pure []
  | b :: rest, entryPoint => do
    let entryPoint ←
      if isSecondLast then
        match lookupJ resultEntry "id" with
        | none => throw "Could not find the id for elements in target list"
        | some id => pure (entryPoint ++ "#" ++ goFormat id)
      else pure entryPoint
    let restSet ← branchSetWithEntry isSecondLast resultEntry rest entryPoint
    pure ((b ++ [entryPoint]) :: restSet)

/-- The list half of the second-to-last rewrite in the object/scalar case of
executorFindInsertionPoints (executor.go lines 469-486): branch i is indexed
against element i of the root list; an out-of-range index is a Go panic. -/
def branchesAddListIds (pointI : Nat) (rootList : List JSON) :
    List (List String) → Nat → Except String (List (List String))
  | [], _ => pure []
  | b :: rest, i => do
    let entryJ ←
      match rootList.get? i with
      | none => throw "panic: index out of range in root list"
      | some e => pure e
    let entry ←
      match entryJ with
      | JSON.obj o => pure o
      | _ => throw "Item in root list was not a map"
    let id ←
      match lookupJ entry "id" with
      | none => throw "Could not find the id for the object"
      | some v => pure v
    let cur ←
      match b.get? pointI with
      | none => throw "panic: index out of range in branch"
      | some c => pure c
    let rest2 ← branchesAddListIds pointI rootList rest (i + 1)
    pure (b.set pointI (cur ++ ":" ++ toString i ++ "#" ++ goFormat id) :: rest2)

/-- The object half of the second-to-last rewrite in the object/scalar case
of executorFindInsertionPoints (executor.go lines 487-502).  The source
checks a stale ok flag there, so a missing id is not an error: the nil
interface is formatted into the segment. -/
def branchesAddObjectId (pointI : Nat) (rootObj : List (String × JSON)) :
    List (List String) → Except String (List (List String))
  | [] => pure []
  | b :: rest => do
    let cur ←
      match b.get? pointI with
      | none => throw "panic: index out of range in branch"
      | some c => pure c
    let rest2 ← branchesAddObjectId pointI rootObj rest
    pure (b.set pointI (cur ++ "#" ++ goFormatOpt (lookupJ rootObj "id")) :: rest2)

mutual

/-- The main loop of executorFindInsertionPoints (executor.go lines 343-516),
recursing on the point index.  The resultChunk and stripNode arguments are
only changed by the recursive descent into list entries, never by the loop
itself, exactly as in the source.  The initial loop of the source (lines
321-325) only reassigns its local loop variable and is a no-op. -/
def executorFindInsertionPointsLoop (fuel : Nat) (targetPoints : List String)
    (pointI : Nat) (selectionSetRoot : List Selection)
    (resultChunk : List (String × JSON)) (oldBranch : List (List String))
    (stripNode : Bool) : Except String (List (List String)) :=
  match fuel with
  | 0 => throw "model ran out of fuel"
  | Nat.succ fuel =>
    if hlt : pointI < targetPoints.length then
      let point := targetPoints[pointI]
      if pointI == targetPoints.length - 1 then
        executorFindInsertionPointsLoop fuel targetPoints (pointI + 1) selectionSetRoot
          resultChunk (oldBranch.map (fun b => b ++ [point])) stripNode
      else
        match (selectedFields selectionSetRoot).find?
            (fun s => s.aliasName == point || s.nameOf == point) with
        | none => throw ("Could not find selection for " ++ point)
        | some selection => do
          let selectionSetNext := selection.selectionSet
          let value ←
            if stripNode then
              match lookupJ resultChunk "node" with
              | none => throw "Could not find top level node value"
              | some (JSON.obj objValue) => pure objValue
              | some _ => throw "node value was not an object"
            else pure resultChunk
          let rootValue ←
            match lookupJ value point with
            | none => throw "Root value of result chunk could not be found"
            | some rv => pure rv
          let selectionType ←
            match selection.defType with
            | none => throw "panic: nil Definition dereference"
            | some t => pure t
          match selectionType.elemType with
          | some _ =>
            match rootValue with
            | JSON.arr rootList =>
              executorFindInsertionPointsEntries fuel targetPoints pointI selectionSetNext
                selection.nameOf oldBranch rootList 0
            | _ => throw "Root value of result chunk was not a list"
          | none => do
            let branches := oldBranch.map (fun b => b ++ [point])
            let branches ←
              if pointI == targetPoints.length - 2 then
                match rootValue with
                | JSON.arr rootList => branchesAddListIds pointI rootList branches 0
                | JSON.obj rootObj => branchesAddObjectId pointI rootObj branches
                | _ =>
                  throw ("Root value of result chunk was not an object. Point: " ++ point)
              else pure branches
            executorFindInsertionPointsLoop fuel targetPoints (pointI + 1) selectionSetNext
              resultChunk branches stripNode
    else
      pure oldBranch

/-- The iteration over the entries of a list-valued field in
executorFindInsertionPoints (executor.go lines 402-455): each entry extends
the branch set and recurses into the entry with stripNode false; the
resulting insertion points are concatenated in entry order and returned
early, without continuing the outer loop. -/
def executorFindInsertionPointsEntries (fuel : Nat) (targetPoints : List String)
    (pointI : Nat) (selectionSetNext : List Selection) (selectionName : String)
    (oldBranch : List (List String)) (entries : List JSON) (entryI : Nat) :
    Except String (List (List String)) :=
  match fuel with
  | 0 => throw "model ran out of fuel"
  | Nat.succ fuel =>
    match entries with
    | [] => pure []
    | iEntry :: rest => do
      let resultEntry ←
        match iEntry with
        | JSON.obj o => pure o
        | _ => throw "entry in result was not a map"
      let entryPoint := selectionName ++ ":" ++ toString entryI
      let newBranchSet ←
        if oldBranch.length > 0 then
          branchSetWithEntry (pointI == targetPoints.length - 2) resultEntry oldBranch
            entryPoint
        else
          pure [[entryPoint]]
      let startIdx :=
        match newBranchSet with
        | [] => 0
        | b :: _ => b.length
      let entryInsertionPoints ←
        executorFindInsertionPointsLoop fuel targetPoints startIdx selectionSetNext
          resultEntry newBranchSet false
      let restPoints ←
        executorFindInsertionPointsEntries fuel targetPoints pointI selectionSetNext
          selectionName oldBranch rest (entryI + 1)
      pure (entryInsertionPoints ++ restPoints)

end

/-- executorFindInsertionPoints (executor.go lines 317-520): the starting
index is the length of the first starting branch, and the loop walks the
remaining target points. -/
def executorFindInsertionPoints (fuel : Nat) (targetPoints : List String)
    (selectionSet : List Selection) (result : List (String × JSON))
    (startingPoints : List (List String)) (stripNode : Bool) :
    Except String (List (List String)) :=
  let startingIndex :=
    match startingPoints with
    | [] => 0
    | b :: _ => b.length
  executorFindInsertionPointsLoop fuel targetPoints startingIndex selectionSet result
    startingPoints stripNode

/-- The Int type used in the selection definitions of the root-list test. -/
def namedString : AstType := AstType.named "String"

/-- The parent selection set of the root-list expansion scenario
(executor_test.go TestFindInsertionPoint_rootList): users, photoGallery and
likedBy are list-typed fields; likedBy selects totalLikes and id. -/
def c1SelectionSet : List Selection :=
  [Selection.field "" "users" [] (some (AstType.listOf (AstType.named "User")))
    [Selection.field "" "photoGallery" [] (some (AstType.listOf (AstType.named "Photo")))
      [Selection.field "" "likedBy" [] (some (AstType.listOf (AstType.named "User")))
        [Selection.field "" "totalLikes" [] (some (AstType.named "Int")) [],
         Selection.field "" "id" [] (some (AstType.named "ID")) []]]]]

/-- A likedBy entry of the root-list expansion scenario. -/
def c1Liker (id : String) : JSON :=
  JSON.obj [("totalLikes", JSON.num 10), ("id", JSON.str id)]

/-- The parent result of the root-list expansion scenario: one user whose
photoGallery has three non-empty likedBy lists (ids 1,2 then 3,4,5 then 6)
and a fourth photo with an empty likedBy list. -/
def c1Result : List (String × JSON) :=
  [("users", JSON.arr
    [JSON.obj [("photoGallery", JSON.arr
      [JSON.obj [("likedBy", JSON.arr [c1Liker "1", c1Liker "2"])],
       JSON.obj [("likedBy", JSON.arr [c1Liker "3", c1Liker "4", c1Liker "5"])],
       JSON.obj [("likedBy", JSON.arr [c1Liker "6"])],
       JSON.obj [("likedBy", JSON.arr [])]])]])]

/-- C1: on the planned child path [users, photoGallery, likedBy, firstName],
with the root-list parent selection set and parent result, an empty starting
branch set and stripNode false, the expansion returns exactly the six
realised insertion points of the claim, in this order. -/
theorem c1_find_insertion_points_root_list :
    executorFindInsertionPoints 100 ["users", "photoGallery", "likedBy", "firstName"]
      c1SelectionSet c1Result [] false =
    Except.ok
      [["users:0", "photoGallery:0", "likedBy:0#1", "firstName"],
       ["users:0", "photoGallery:0", "likedBy:1#2", "firstName"],
       ["users:0", "photoGallery:1", "likedBy:0#3", "firstName"],
       ["users:0", "photoGallery:1", "likedBy:1#4", "firstName"],
       ["users:0", "photoGallery:1", "likedBy:2#5", "firstName"],
       ["users:0", "photoGallery:2", "likedBy:0#6", "firstName"]] := by
  rfl

/-- C2: for every step whose parentType is neither Query nor Mutation, the
built query operation is a query whose selection set is exactly one field
named node carrying exactly one argument named id, whose single child is an
inline fragment on the parentType holding the step selection set. -/
theorem c2_build_query_node_pattern (parentType parentID : String)
    (variableDefs : VariableDefinitionList) (selectionSet : List Selection)
    (hq : parentType ≠ "Query") (_hm : parentType ≠ "Mutation") :
    (executorBuildQuery parentType parentID variableDefs selectionSet).operation =
        OperationType.query ∧
    (executorBuildQuery parentType parentID variableDefs selectionSet).selectionSet =
      [Selection.field "" "node"
        [{ name := "id", value := { kind := ValueKind.stringValue, raw := parentID } }]
        none
        [Selection.inlineFragment parentType selectionSet]] := by
  have hb : (parentType == "Query") = false := by
    simp [hq]
  constructor <;> simp [executorBuildQuery, hb]

/-- Witness for C2 at the concrete input of the node-pattern unit test: the
parent type User with id 1234. -/
theorem c2_build_query_node_pattern_witness :
    ("User" : String) ≠ "Query" ∧ ("User" : String) ≠ "Mutation" ∧
    (executorBuildQuery "User" "1234" []
        [Selection.field "" "firstName" [] (some namedString) []]).selectionSet =
      [Selection.field "" "node"
        [{ name := "id", value := { kind := ValueKind.stringValue, raw := "1234" } }]
        none
        [Selection.inlineFragment "User"
          [Selection.field "" "firstName" [] (some namedString) []]]] :=
  ⟨by decide, by decide,
    (c2_build_query_node_pattern "User" "1234" []
      [Selection.field "" "firstName" [] (some namedString) []]
      (by decide) (by decide)).2⟩

/-- The parent-id computation of executeStep (executor.go lines 211-225):
when the realised insertion point has more than one segment, the segment at
index length-2 (the second-to-last) is decomposed and its id taken;
otherwise the id stays empty. -/
def executeStepParentID (insertionPoint : List String) : Except String String :=
  if insertionPoint.length > 1 then do
    let head := insertionPoint.getD (insertionPoint.length - 2) ""
    let pointData ← executorGetPointData head
    pure pointData.id
  else
    pure ""

/-- The loop body of the variable gathering of executeStep (executor.go
lines 231-241), restricted to the values map: a variable value is copied
only when present in the caller variables; nothing happens otherwise. -/
def executeStepVariablesGo : List String → List (String × JSON) →
    List (String × JSON) → List (String × JSON)
  | [], _, acc => acc
  | v :: rest, queryVariables, acc =>
    executeStepVariablesGo rest queryVariables
      (match lookupJ queryVariables v with
       | some value => mapSet acc v value
       | none => acc)

/-- The variables map sent upstream by executeStep: gathered over the step
variable set starting from the empty map.  The function is total: the source
has no error path for a missing variable. -/
def executeStepVariables (stepVariables : List String)
    (queryVariables : List (String × JSON)) : List (String × JSON) :=
  executeStepVariablesGo stepVariables queryVariables []

/-- A query plan step as executeStep consumes it (plan.go is not among the
provided sources; the fields are reconstructed from every use in executor.go
and the executor tests; the Go field named Variables is called variableSet
here because that word is reserved in Lean).  The queryer is modelled as an optional function
from the built query document and gathered variables to a response map, the
shape of the Queryer capability; none models a nil Queryer. -/
structure QueryPlanStep where
  parentType : String
  selectionSet : List Selection
  variableSet : List String
  queryer : Option (OperationDefinition → List (String × JSON) →
    Except String (List (String × JSON)))

/-- The record a worker publishes on the result channel
(queryExecutionResult, executor.go lines 24-28). -/
structure QueryExecutionResult where
  insertionPoint : List String
  result : List (String × JSON)
  stripNode : Bool

/-- The sequential core of executeStep (executor.go lines 142-307) for a
step without child steps: compute the parent id from the realised insertion
point, gather the variable definitions and values, build the query, run the
queryer, and publish the result with stripNode set exactly when the parent
type differs from Query (line 273).  The concurrent spawning of child
workers and the id augmentation for child steps concern only steps with
children and are outside this fragment. -/
def executeStep (step : QueryPlanStep) (insertionPoint : List String)
    (planVariables : List VariableDefinition)
    (queryVariables : List (String × JSON)) :
    Except String QueryExecutionResult := do
  let id ← executeStepParentID insertionPoint
  let variableDefs : VariableDefinitionList :=
    step.variableSet.map (variableDefinitionListForName planVariables)
  let queryVars := executeStepVariables step.variableSet queryVariables
  let query := executorBuildQuery step.parentType id variableDefs step.selectionSet
  match step.queryer with
  | none => throw "could not find queryer for step"
  | some queryerFn => do
    let queryResult ← queryerFn query queryVars
    let stripNode := step.parentType != "Query"
    pure { insertionPoint := insertionPoint, result := queryResult, stripNode := stripNode }

/-- A mutation step of the kind the planner would hand the executor: parent
type Mutation, a queryer returning a fixed response. -/
def c3Step : QueryPlanStep :=
  { parentType := "Mutation"
    selectionSet := [Selection.field "" "addUser" [] (some (AstType.named "User")) []]
    variableSet := []
    queryer := some (fun _ _ => Except.ok [("addUser", JSON.obj [("id", JSON.str "1")])]) }

/-- C3 counterexample: for a step with parentType Mutation the published
record carries stripNode true, so node unwrapping would occur before
stitching, contradicting the claim that it occurs if and only if the parent
type is neither Query nor Mutation. -/
theorem c3_mutation_step_strips_node :
    executeStep c3Step [] [] [] =
      Except.ok
        { insertionPoint := []
          result := [("addUser", JSON.obj [("id", JSON.str "1")])]
          stripNode := true } := by
  rfl

/-- C3 amended: the result published for a step is marked for node
unwrapping exactly when the step parentType differs from Query; Mutation is
not exempted by the source (executor.go line 273). -/
theorem c3_strip_node_iff_not_query (step : QueryPlanStep)
    (insertionPoint : List String) (planVariables : List VariableDefinition)
    (queryVariables : List (String × JSON)) (res : QueryExecutionResult)
    (h : executeStep step insertionPoint planVariables queryVariables = Except.ok res) :
    (res.stripNode = true ↔ step.parentType ≠ "Query") := by
  unfold executeStep at h
  cases hid : executeStepParentID insertionPoint with
  | error e => rw [hid] at h; simp [Bind.bind, Except.bind] at h
  | ok idv =>
    rw [hid] at h
    simp only [Bind.bind, Except.bind] at h
    cases hq : step.queryer with
    | none => rw [hq] at h; simp [throw, throwThe, MonadExceptOf.throw] at h
    | some queryerFn =>
      rw [hq] at h
      dsimp only at h
      cases hr : queryerFn
          (executorBuildQuery step.parentType idv
            (step.variableSet.map (variableDefinitionListForName planVariables))
            step.selectionSet)
          (executeStepVariables step.variableSet queryVariables) with
      | error e => rw [hr] at h; simp at h
      | ok queryResult =>
        rw [hr] at h
        simp only [pure, Except.pure, Except.ok.injEq] at h
        subst h
        simp [bne_iff_ne]

/-- Witness for C3 amended at the concrete mutation step. -/
theorem c3_strip_node_iff_not_query_witness :
    executeStep c3Step [] [] [] =
      Except.ok
        { insertionPoint := []
          result := [("addUser", JSON.obj [("id", JSON.str "1")])]
          stripNode := true } ∧
    ((true = true) ↔ c3Step.parentType ≠ "Query") :=
  ⟨by rfl, c3_strip_node_iff_not_query c3Step [] [] []
    { insertionPoint := []
      result := [("addUser", JSON.obj [("id", JSON.str "1")])]
      stripNode := true } (by rfl)⟩

/-- C4 counterexample: on the realised insertion point
[users:0, likedBy:0#6, firstName] the terminal segment firstName has no id
part, so the claim requires an empty parent id, yet the code extracts 6 from
the second-to-last segment. -/
theorem c4_parent_id_not_from_terminal :
    executeStepParentID ["users:0", "likedBy:0#6", "firstName"] = Except.ok "6" ∧
    ("6" : String) ≠ "" := by
  constructor
  · rfl
  · decide

/-- C4 amended: the parent id is extracted (via executorGetPointData) from
the second-to-last segment of the realised insertion point whenever the
point has at least two segments, and is empty otherwise. -/
theorem c4_parent_id_second_to_last :
    (∀ (xs : List String) (a b : String),
      executeStepParentID (xs ++ [a, b]) =
        Except.map (fun pd => pd.id) (executorGetPointData a)) ∧
    executeStepParentID [] = Except.ok "" ∧
    (∀ a : String, executeStepParentID [a] = Except.ok "") := by
  refine ⟨?_, rfl, fun a => rfl⟩
  intro xs a b
  have hlen : (xs ++ [a, b]).length = xs.length + 2 := by simp
  have hd : (xs ++ [a, b]).getD ((xs ++ [a, b]).length - 2) "" = a := by
    rw [hlen]
    have h2 : xs.length + 2 - 2 = xs.length := by omega
    rw [h2]
    induction xs with
    | nil => rfl
    | cons x rest ih => simpa [List.getD] using ih
  unfold executeStepParentID
  rw [if_pos (by omega)]
  rw [hd]
  cases hpd : executorGetPointData a with
  | error e => simp [Bind.bind, Except.bind, Except.map, hpd]
  | ok pd => simp [Bind.bind, Except.bind, Except.map, hpd, pure, Except.pure]

/-- Setting a key makes it present with the new value. -/
theorem lookupJ_mapSet_self (m : List (String × JSON)) (k : String) (v : JSON) :
    lookupJ (mapSet m k v) k = some v := by
  induction m with
  | nil => simp [mapSet, lookupJ]
  | cons p rest ih =>
    obtain ⟨k1, v1⟩ := p
    by_cases h : k1 = k
    · subst h
      simp [mapSet, lookupJ]
    · simp [mapSet, lookupJ, h, ih]

/-- Setting one key leaves every other key unchanged. -/
theorem lookupJ_mapSet_ne (m : List (String × JSON)) (k k2 : String) (v : JSON)
    (h : k2 ≠ k) : lookupJ (mapSet m k v) k2 = lookupJ m k2 := by
  have h2 : ¬(k = k2) := fun hh => h hh.symm
  induction m with
  | nil => simp [mapSet, lookupJ, h2]
  | cons p rest ih =>
    obtain ⟨k1, v1⟩ := p
    by_cases h1 : k1 = k
    · subst h1
      simp [mapSet, lookupJ, h2]
    · by_cases h3 : k1 = k2
      · subst h3
        simp [mapSet, lookupJ, h1]
      · simp [mapSet, lookupJ, h1, h3, ih]

/-- Invariant of the gathering loop: a key of the gathered map holds the
caller value when the key is a step variable present in the caller map, and
whatever the accumulator held otherwise. -/
theorem lookupJ_executeStepVariablesGo (stepVariables : List String)
    (queryVariables : List (String × JSON)) :
    ∀ (acc : List (String × JSON)) (v : String),
    lookupJ (executeStepVariablesGo stepVariables queryVariables acc) v =
      if v ∈ stepVariables ∧ (lookupJ queryVariables v).isSome then
        lookupJ queryVariables v
      else lookupJ acc v := by
  induction stepVariables with
  | nil =>
    intro acc v
    rw [executeStepVariablesGo]
    rw [if_neg (by simp)]
  | cons w rest ih =>
    intro acc v
    rw [executeStepVariablesGo]
    rw [ih]
    by_cases hw : v = w
    · subst hw
      cases hq : lookupJ queryVariables v with
      | none =>
        dsimp only
        simp
      | some value =>
        dsimp only
        rw [lookupJ_mapSet_self]
        simp
    · cases hq : lookupJ queryVariables w with
      | none =>
        dsimp only
        simp [List.mem_cons, hw]
      | some value =>
        dsimp only
        rw [lookupJ_mapSet_ne _ _ _ _ hw]
        simp [List.mem_cons, hw]

/-- C5 amended: every step variable whose value is present in the caller
variables map is copied into the upstream variables map; a variable absent
from the caller map is silently omitted, and the gathering has no error
path. -/
theorem c5_variables_copied_when_present :
    (∀ (stepVariables : List String) (queryVariables : List (String × JSON))
      (v : String) (val : JSON), v ∈ stepVariables →
      lookupJ queryVariables v = some val →
      lookupJ (executeStepVariables stepVariables queryVariables) v = some val) ∧
    (∀ (stepVariables : List String) (queryVariables : List (String × JSON))
      (v : String), lookupJ queryVariables v = none →
      lookupJ (executeStepVariables stepVariables queryVariables) v = none) := by
  constructor
  · intro stepVariables queryVariables v val hmem hq
    unfold executeStepVariables
    rw [lookupJ_executeStepVariablesGo]
    rw [if_pos ⟨hmem, by rw [hq]; rfl⟩]
    exact hq
  · intro stepVariables queryVariables v hq
    unfold executeStepVariables
    rw [lookupJ_executeStepVariablesGo]
    rw [if_neg (fun hc => by rw [hq] at hc; exact absurd hc.2 (by simp))]
    rfl

/-- Witness for C5 amended at a concrete input: the step variable id present
in the caller map is copied through. -/
theorem c5_variables_copied_when_present_witness :
    ("id" ∈ (["id"] : List String)) ∧
    lookupJ [("id", JSON.str "1")] "id" = some (JSON.str "1") ∧
    lookupJ (executeStepVariables ["id"] [("id", JSON.str "1")]) "id" =
      some (JSON.str "1") :=
  ⟨List.mem_cons_self "id" [], rfl,
    c5_variables_copied_when_present.1 ["id"] [("id", JSON.str "1")] "id"
      (JSON.str "1") (List.mem_cons_self "id" []) rfl⟩

/-- A step that declares the variable id while the caller supplies no
variables at all. -/
def c5Step : QueryPlanStep :=
  { parentType := "Query"
    selectionSet := [Selection.field "" "user" [] (some (AstType.named "User")) []]
    variableSet := ["id"]
    queryer := some (fun _ _ => Except.ok [("user", JSON.obj [("id", JSON.str "1")])]) }

/-- C5 counterexample: executing a step that requires the variable id with
an empty caller variables map succeeds with no error, contradicting the
claim that execution fails when a required variable is absent. -/
theorem c5_missing_variable_is_not_an_error :
    executeStep c5Step [] [] [] =
      Except.ok
        { insertionPoint := []
          result := [("user", JSON.obj [("id", JSON.str "1")])]
          stripNode := false } := by
  rfl

/-- The list growth of executorExtractValue (executor.go lines 553-561): the
append loop runs the index i from length-1 while i is below the target
index, so the list always ends with exactly index+1 entries, padded with
empty objects. -/
def executorExtractGrow (l : List JSON) (index : Int) : List JSON :=
  if (l.length : Int) ≤ index then
    l ++ List.replicate (index - ((l.length : Int) - 1)).toNat (JSON.obj [])
  else l

/-- The list growth of executorInsertObject (executor.go lines 634-639): the
append loop runs the index i from max(length-1, 0) through the target index
inclusive, so it appends index+1 entries to an empty list but index-length+2
entries to a non-empty one. -/
def executorInsertGrow (l : List JSON) (index : Int) : List JSON :=
  if (l.length : Int) ≤ index then
    l ++ List.replicate (index - (max ((l.length : Int) - 1) 0) + 1).toNat (JSON.obj [])
  else l

/-- The walk of executorExtractValue (executor.go lines 522-596) as a
functional update: descend the path, creating the missing containers the Go
code creates in place (an absent or nil field becomes an empty object, an
absent list field an empty list, a short list is grown to index+1 entries),
apply the transformation at the focus, and write the modified focus back
through the path; the write-back mirrors the aliasing of the returned Go
pointer into its parents.  Go panics on negative or out-of-range list
indices are errors. -/
def executorModifyValue (f : JSON → Except String JSON) :
    JSON → List String → Except String JSON
  | cur, [] => f cur
  | cur, point :: rest =>
    if (strSplitOnChar ':' point).length > 1 then do
      let pointData ← executorGetPointData point
      match cur with
      | JSON.obj recentObj => do
        let recentObj :=
          match lookupJ recentObj pointData.field with
          | none => mapSet recentObj pointData.field (JSON.arr [])
          | some _ => recentObj
        match (lookupJ recentObj pointData.field).getD JSON.null with
        | JSON.arr targetList => do
          let targetList := executorExtractGrow targetList pointData.index
          if pointData.index < 0 then
            throw "panic: index out of range in list"
          else
            match targetList.get? pointData.index.toNat with
            | none => throw "panic: index out of range in list"
            | some elem => do
              let elem2 ← executorModifyValue f elem rest
              pure (JSON.obj (mapSet recentObj pointData.field
                (JSON.arr (targetList.set pointData.index.toNat elem2))))
        | _ => throw "did not encounter a list when expected"
      | _ => throw "List was not a child of an object"
    else do
      let pointData ← executorGetPointData point
      let pointField := pointData.field
      match cur with
      | JSON.obj recentObj => do
        let recentObj :=
          match lookupJ recentObj pointField with
          | none => mapSet recentObj pointField (JSON.obj [])
          | some JSON.null => mapSet recentObj pointField (JSON.obj [])
          | some _ => recentObj
        let next := (lookupJ recentObj pointField).getD JSON.null
        let next2 ← executorModifyValue f next rest
        pure (JSON.obj (mapSet recentObj pointField next2))
      | _ => throw "Target was not an object"

/-- The terminal assignment of executorInsertObject (executor.go lines
610-658), applied at the object the path walk focused: a list head grows the
list with executorInsertGrow and shallow-merges an object value into the
element at the index (a non-object element with a non-empty object value is
the Go panic of writing into a nil map; a non-object value is silently not
merged); a plain head assigns the value at the key. -/
def executorInsertObjectF (head : String) (value : JSON) (obj : JSON) :
    Except String JSON :=
  match obj with
  | JSON.obj valueObj =>
    if (strSplitOnChar ':' head).length > 1 then do
      let pointData ← executorGetPointData head
      let valueObj :=
        match lookupJ valueObj pointData.field with
        | none => mapSet valueObj pointData.field (JSON.arr [])
        | some _ => valueObj
      match (lookupJ valueObj pointData.field).getD JSON.null with
      | JSON.arr valueList => do
        let valueList := executorInsertGrow valueList pointData.index
        if pointData.index < 0 then
          throw "panic: index out of range in list"
        else
          match valueList.get? pointData.index.toNat with
          | none => throw "panic: index out of range in list"
          | some fieldElem => do
            let fieldElem2 ←
              match fieldElem, value with
              | JSON.obj mapField, JSON.obj objValue =>
                pure (JSON.obj (objValue.foldl (fun m kv => mapSet m kv.1 kv.2) mapField))
              | _, JSON.obj [] => pure fieldElem
              | _, JSON.obj _ => throw "panic: assignment to entry in nil map"
              | _, _ => pure fieldElem
            pure (JSON.obj (mapSet valueObj pointData.field
              (JSON.arr (valueList.set pointData.index.toNat fieldElem2))))
      | _ => throw "Found a non-list at the insertion point"
    else
      pure (JSON.obj (mapSet valueObj head value))
  | _ => throw "something went wrong"

/-- executorInsertObject (executor.go lines 598-670): walk the target along
the path without its last segment exactly as executorExtractValue does, then
apply the terminal assignment at the focus; an empty path shallow-merges an
object value into the target. -/
def executorInsertObject (target : List (String × JSON)) (path : List String)
    (value : JSON) : Except String (List (String × JSON)) :=
  match path.getLast? with
  | some head => do
    let tail := path.dropLast
    let res ← executorModifyValue (executorInsertObjectF head value) (JSON.obj target) tail
    match res with
    | JSON.obj o => pure o
    | _ => throw "something went wrong"
  | none =>
    match value with
    | JSON.obj valueObj =>
      pure (valueObj.foldl (fun m kv => mapSet m kv.1 kv.2) target)
    | _ => throw "something went wrong"

/-- C6: at a terminal field:1 segment an absent list is grown to exactly 2
entries as the claim states, but a list that already holds one entry is
grown to 3 entries, one more than the claimed N+1, before the result is
merged at index 1; the trailing empty object remains in the stitched
response. -/
theorem c6_insert_list_growth :
    executorInsertObject [] ["field:1"] (JSON.obj [("x", JSON.str "y")]) =
      Except.ok [("field", JSON.arr [JSON.obj [], JSON.obj [("x", JSON.str "y")]])] ∧
    executorInsertObject [("field", JSON.arr [JSON.obj []])] ["field:1"]
        (JSON.obj [("x", JSON.str "y")]) =
      Except.ok [("field",
        JSON.arr [JSON.obj [], JSON.obj [("x", JSON.str "y")], JSON.obj []])] := by
  constructor
  · rfl
  · rfl

/-- A query plan as the planner returns it (plan.go is not among the
provided sources): a root step whose child steps are the units of work,
modelled by that list of steps. -/
structure QueryPlan where
  rootSteps : List QueryPlanStep

/-- Gateway.Execute (gateway.go lines 32-53) after planning: the planner
returns one plan per top-level operation, and the gateway invokes the
executor on plan[0] only, under the source comment TODO handle plans of more
than one query.  The request-middleware gathering that precedes the call
does not influence which plans execute and is omitted; indexing an empty
plan list is the Go panic of plan[0]. -/
def gatewayExecute (plans : List QueryPlan)
    (executorExec : QueryPlan → Except String (List (String × JSON))) :
    Except String (List (String × JSON)) :=
  match plans with
  | [] => throw "panic: index out of range"
  | p :: _ => executorExec p

/-- A first plan with one root step. -/
def c7PlanA : QueryPlan :=
  { rootSteps :=
      [{ parentType := "Query", selectionSet := [], variableSet := [], queryer := none }] }

/-- A second plan, distinguishable from the first by its empty root. -/
def c7PlanB : QueryPlan :=
  { rootSteps := [] }

/-- An executor that would fail loudly if it ever received the second plan. -/
def c7Exec : QueryPlan → Except String (List (String × JSON)) :=
  fun plan =>
    if plan.rootSteps.isEmpty then throw "executed the second plan"
    else Except.ok [("a", JSON.str "1")]

/-- C7 counterexample: with a two-operation document whose planner output is
two plans, the gateway returns the result of the first plan even though
executing the second would fail loudly; the second plan is never executed,
contradicting the claim that every plan produced by the planner runs. -/
theorem c7_only_first_plan_executes :
    gatewayExecute [c7PlanA, c7PlanB] c7Exec = Except.ok [("a", JSON.str "1")] := by
  rfl

/-- C7 amended: the gateway executes exactly the first plan the planner
produced; the outcome is the executor run on that plan alone, regardless of
any further plans. -/
theorem c7_gateway_executes_head_plan
    (plans : List QueryPlan)
    (executorExec : QueryPlan → Except String (List (String × JSON)))
    (p : QueryPlan) (rest : List QueryPlan) (h : plans = p :: rest) :
    gatewayExecute plans executorExec = executorExec p := by
  subst h
  rfl

/-- Witness for C7 amended at the two concrete plans. -/
theorem c7_gateway_executes_head_plan_witness :
    ([c7PlanA, c7PlanB] = c7PlanA :: [c7PlanB]) ∧
    gatewayExecute [c7PlanA, c7PlanB] c7Exec = c7Exec c7PlanA :=
  ⟨rfl, c7_gateway_executes_head_plan [c7PlanA, c7PlanB] c7Exec c7PlanA [c7PlanB] rfl⟩

/-- A gqlgen introspection.EnumValue as schema.go consumes it. -/
structure IntroEnumValue where
  name : String
  description : String
  isDeprecated : Bool
  deprecationReason : String

mutual

/-- A gqlgen introspection.Type as schema.go consumes it: kind, optional
name, description, fields, interfaces, possible types, enum values, input
fields and the optional wrapped type. -/
inductive IntroType where
  | mk (kind : String) (typeName : Option String) (description : String)
      (fields : List IntroField) (interfaces : List IntroType)
      (possibleTypes : List IntroType) (enumValues : List IntroEnumValue)
      (inputFields : List IntroInputValue) (ofType : Option IntroType)

/-- A gqlgen introspection.Field. -/
inductive IntroField where
  | mk (name : String) (description : String) (args : List IntroInputValue)
      (fieldType : IntroType) (isDeprecated : Bool) (deprecationReason : String)

/-- A gqlgen introspection.InputValue. -/
inductive IntroInputValue where
  | mk (name : String) (description : String) (valueType : IntroType)

end

/-- A gqlgen introspection.Directive. -/
structure IntroDirective where
  name : String
  description : String
  args : List IntroInputValue
  locations : List String

/-- A gqlgen introspection.Schema as schema.go consumes it. -/
structure IntroSchema where
  types : List IntroType
  queryType : Option IntroType
  mutationType : Option IntroType
  subscriptionType : Option IntroType
  directives : List IntroDirective

/-- The Kind method of an introspection type. -/
def IntroType.kind : IntroType → String
  | .mk k _ _ _ _ _ _ _ _ => k

/-- The Name method of an introspection type (nil for wrapper types). -/
def IntroType.typeName : IntroType → Option String
  | .mk _ n _ _ _ _ _ _ _ => n

/-- The Description method of an introspection type. -/
def IntroType.description : IntroType → String
  | .mk _ _ d _ _ _ _ _ _ => d

/-- The unfiltered field list of an introspection type. -/
def IntroType.fields : IntroType → List IntroField
  | .mk _ _ _ fs _ _ _ _ _ => fs

/-- The Interfaces method of an introspection type. -/
def IntroType.interfaces : IntroType → List IntroType
  | .mk _ _ _ _ is _ _ _ _ => is

/-- The PossibleTypes method of an introspection type. -/
def IntroType.possibleTypes : IntroType → List IntroType
  | .mk _ _ _ _ _ ps _ _ _ => ps

/-- The unfiltered enum value list of an introspection type. -/
def IntroType.enumValues : IntroType → List IntroEnumValue
  | .mk _ _ _ _ _ _ es _ _ => es

/-- The InputFields method of an introspection type. -/
def IntroType.inputFields : IntroType → List IntroInputValue
  | .mk _ _ _ _ _ _ _ ivs _ => ivs

/-- The OfType method of an introspection type. -/
def IntroType.ofType : IntroType → Option IntroType
  | .mk _ _ _ _ _ _ _ _ o => o

/-- The name of an introspection field. -/
def IntroField.name : IntroField → String
  | .mk n _ _ _ _ _ => n

/-- The description of an introspection field. -/
def IntroField.description : IntroField → String
  | .mk _ d _ _ _ _ => d

/-- The argument list of an introspection field. -/
def IntroField.args : IntroField → List IntroInputValue
  | .mk _ _ a _ _ _ => a

/-- The type of an introspection field. -/
def IntroField.fieldType : IntroField → IntroType
  | .mk _ _ _ t _ _ => t

/-- The IsDeprecated method of an introspection field. -/
def IntroField.isDeprecated : IntroField → Bool
  | .mk _ _ _ _ dep _ => dep

/-- The DeprecationReason method of an introspection field. -/
def IntroField.deprecationReason : IntroField → String
  | .mk _ _ _ _ _ r => r

/-- The name of an introspection input value. -/
def IntroInputValue.name : IntroInputValue → String
  | .mk n _ _ => n

/-- The description of an introspection input value. -/
def IntroInputValue.description : IntroInputValue → String
  | .mk _ d _ => d

/-- The type of an introspection input value. -/
def IntroInputValue.valueType : IntroInputValue → IntroType
  | .mk _ _ t => t

/-- An optional string emitted into the introspection result: Go encodes a
nil pointer as null. -/
def optStr : Option String → JSON
  | none => JSON.null
  | some s => JSON.str s

/-- The includeDeprecated argument handling of introspectType (schema.go
lines 117-120): default false, true exactly when the argument is passed with
raw value true. -/
def includeDeprecatedArg (field : Selection) : Bool :=
  match argumentsForName field.argumentsOf "includeDeprecated" with
  | some passedValue => passedValue.value.raw == "true"
  | none => false

/-- SchemaQueryer.introspectEnumValue (schema.go lines 169-187): dispatch on
the field name, emit under the field alias. -/
def introspectEnumValue (definition : IntroEnumValue) (selectionSet : List Selection) :
    JSON :=
  JSON.obj ((selectedFields selectionSet).foldl (fun result field =>
    match field.nameOf with
    | "name" => mapSet result field.aliasName (JSON.str definition.name)
    | "description" => mapSet result field.aliasName (JSON.str definition.description)
    | "isDeprecated" => mapSet result field.aliasName (JSON.bool definition.isDeprecated)
    | "deprecationReason" =>
      mapSet result field.aliasName (JSON.str definition.deprecationReason)
    | _ => result) [])

/-- SchemaQueryer.introspectEnumValueSlice (schema.go lines 248-257). -/
def introspectEnumValueSlice (values : List IntroEnumValue)
    (selectionSet : List Selection) : JSON :=
  JSON.arr (values.map (fun v => introspectEnumValue v selectionSet))

mutual

/-- SchemaQueryer.introspectType (schema.go lines 107-144): nil yields a nil
map, otherwise dispatch on the field name and emit under the field alias;
the fields and enumValues cases gate deprecated entries on the
includeDeprecated argument (the filtering itself is the behaviour of the
gqlgen introspection library, modelled from the spec sentence that
includeDeprecated gates inclusion of deprecated fields and enum values). -/
def introspectType (fuel : Nat) (schemaType : Option IntroType)
    (selectionSet : List Selection) : JSON :=
  match fuel with
  | 0 => JSON.null
  | Nat.succ fuel =>
    match schemaType with
    | none => JSON.null
    | some t =>
      JSON.obj ((selectedFields selectionSet).foldl (fun result field =>
        let includeDeprecated := includeDeprecatedArg field
        match field.nameOf with
        | "kind" => mapSet result field.aliasName (JSON.str t.kind)
        | "name" => mapSet result field.aliasName (optStr t.typeName)
        | "description" => mapSet result field.aliasName (JSON.str t.description)
        | "fields" =>
          mapSet result field.aliasName
            (introspectFieldSlice fuel
              (t.fields.filter (fun f => includeDeprecated || !f.isDeprecated))
              field.selectionSet)
        | "interfaces" =>
          mapSet result field.aliasName
            (introspectTypeSlice fuel t.interfaces field.selectionSet)
        | "possibleTypes" =>
          mapSet result field.aliasName
            (introspectTypeSlice fuel t.possibleTypes field.selectionSet)
        | "enumValues" =>
          mapSet result field.aliasName
            (introspectEnumValueSlice
              (t.enumValues.filter (fun e => includeDeprecated || !e.isDeprecated))
              field.selectionSet)
        | "inputFields" =>
          mapSet result field.aliasName
            (introspectInputValueSlice fuel t.inputFields field.selectionSet)
        | "ofType" =>
          mapSet result field.aliasName
            (introspectType fuel t.ofType field.selectionSet)
        | _ => result) [])

/-- SchemaQueryer.introspectField (schema.go lines 146-167). -/
def introspectField (fuel : Nat) (fieldDef : IntroField)
    (selectionSet : List Selection) : JSON :=
  match fuel with
  | 0 => JSON.null
  | Nat.succ fuel =>
    JSON.obj ((selectedFields selectionSet).foldl (fun result field =>
      match field.nameOf with
      | "name" => mapSet result field.aliasName (JSON.str fieldDef.name)
      | "description" => mapSet result field.aliasName (JSON.str fieldDef.description)
      | "args" =>
        mapSet result field.aliasName
          (introspectInputValueSlice fuel fieldDef.args field.selectionSet)
      | "type" =>
        mapSet result field.aliasName
          (introspectType fuel (some fieldDef.fieldType) field.selectionSet)
      | "isDeprecated" =>
        mapSet result field.aliasName (JSON.bool fieldDef.isDeprecated)
      | "deprecationReason" =>
        mapSet result field.aliasName (JSON.str fieldDef.deprecationReason)
      | _ => result) [])

/-- SchemaQueryer.introspectInputValue (schema.go lines 208-224). -/
def introspectInputValue (fuel : Nat) (iv : IntroInputValue)
    (selectionSet : List Selection) : JSON :=
  match fuel with
  | 0 => JSON.null
  | Nat.succ fuel =>
    JSON.obj ((selectedFields selectionSet).foldl (fun result field =>
      match field.nameOf with
      | "name" => mapSet result field.aliasName (JSON.str iv.name)
      | "description" => mapSet result field.aliasName (JSON.str iv.description)
      | "type" =>
        mapSet result field.aliasName
          (introspectType fuel (some iv.valueType) field.selectionSet)
      | _ => result) [])

/-- SchemaQueryer.introspectTypeSlice (schema.go lines 259-268). -/
def introspectTypeSlice (fuel : Nat) (types : List IntroType)
    (selectionSet : List Selection) : JSON :=
  match fuel with
  | 0 => JSON.null
  | Nat.succ fuel =>
    JSON.arr (types.map (fun t => introspectType fuel (some t) selectionSet))

/-- SchemaQueryer.introspectFieldSlice (schema.go lines 237-246). -/
def introspectFieldSlice (fuel : Nat) (fields : List IntroField)
    (selectionSet : List Selection) : JSON :=
  match fuel with
  | 0 => JSON.null
  | Nat.succ fuel =>
    JSON.arr (fields.map (fun f => introspectField fuel f selectionSet))

/-- SchemaQueryer.introspectInputValueSlice (schema.go lines 226-235). -/
def introspectInputValueSlice (fuel : Nat) (values : List IntroInputValue)
    (selectionSet : List Selection) : JSON :=
  match fuel with
  | 0 => JSON.null
  | Nat.succ fuel =>
    JSON.arr (values.map (fun v => introspectInputValue fuel v selectionSet))

end

/-- SchemaQueryer.introspectDirective (schema.go lines 189-206). -/
def introspectDirective (fuel : Nat) (directive : IntroDirective)
    (selectionSet : List Selection) : JSON :=
  JSON.obj ((selectedFields selectionSet).foldl (fun result field =>
    match field.nameOf with
    | "name" => mapSet result field.aliasName (JSON.str directive.name)
    | "description" => mapSet result field.aliasName (JSON.str directive.description)
    | "args" =>
      mapSet result field.aliasName
        (introspectInputValueSlice fuel directive.args field.selectionSet)
    | "locations" =>
      mapSet result field.aliasName (JSON.arr (directive.locations.map JSON.str))
    | _ => result) [])

/-- SchemaQueryer.introspectDirectiveSlice (schema.go lines 270-279). -/
def introspectDirectiveSlice (fuel : Nat) (directives : List IntroDirective)
    (selectionSet : List Selection) : JSON :=
  JSON.arr (directives.map (fun d => introspectDirective fuel d selectionSet))

/-- SchemaQueryer.introspectSchema (schema.go lines 85-105): the dispatch
switches on the field ALIAS, not the field name, while every emitted key
also uses the alias. -/
def introspectSchema (fuel : Nat) (schema : IntroSchema)
    (selectionSet : List Selection) : JSON :=
  JSON.obj ((selectedFields selectionSet).foldl (fun result field =>
    match field.aliasName with
    | "types" =>
      mapSet result field.aliasName
        (introspectTypeSlice fuel schema.types field.selectionSet)
    | "queryType" =>
      mapSet result field.aliasName
        (introspectType fuel schema.queryType field.selectionSet)
    | "mutationType" =>
      mapSet result field.aliasName
        (introspectType fuel schema.mutationType field.selectionSet)
    | "subscriptionType" =>
      mapSet result field.aliasName
        (introspectType fuel schema.subscriptionType field.selectionSet)
    | "directives" =>
      mapSet result field.aliasName
        (introspectDirectiveSlice fuel schema.directives field.selectionSet)
    | _ => result) [])

/-- The Query type of a small merged schema. -/
def c8QueryType : IntroType :=
  IntroType.mk "OBJECT" (some "Query") "" [] [] [] [] [] none

/-- A small introspection schema whose query type is Query. -/
def c8Schema : IntroSchema :=
  { types := [c8QueryType]
    queryType := some c8QueryType
    mutationType := none
    subscriptionType := none
    directives := [] }

/-- C8: a selection of queryType under __schema with the alias qt (the
gqlparser sets the alias equal to the name when the query has no alias, so
an aliased selection is exactly one whose alias differs from its name) is
dropped entirely by introspectSchema, which dispatches on the alias: the
result is an empty object with no key qt, contradicting the claim that
every selected field is emitted under its alias.  The same selection
without an alias is answered, and one level down introspectType does emit
under the alias. -/
theorem c8_schema_alias_dropped :
    introspectSchema 10 c8Schema
        [Selection.field "qt" "queryType" [] none
          [Selection.field "name" "name" [] none []]] = JSON.obj [] ∧
    introspectSchema 10 c8Schema
        [Selection.field "queryType" "queryType" [] none
          [Selection.field "n" "name" [] none []]] =
      JSON.obj [("queryType", JSON.obj [("n", JSON.str "Query")])] := by
  constructor
  · rfl
  · rfl

/-- QueryPOSTBody (http.go lines 12-16); the Go field named Variables is
called variableValues here because that word is reserved in Lean. -/
structure QueryPOSTBody where
  query : String
  variableValues : List (String × JSON)
  operationName : String
deriving Repr

/-- What the handler does with a request: reject it with an HTTP status and
a message, or proceed to execution with the assembled payload. -/
inductive HandlerOutcome where
  | clientError (status : Nat) (message : String)
  | executed (payload : QueryPOSTBody)
deriving Repr

/-- Go encoding/json.Unmarshal as invoked at http.go line 39: the variables
map is passed by value, not by pointer, and the json.Unmarshal contract
returns an InvalidUnmarshalError whenever the destination is nil or not a
pointer, before looking at the input bytes; nothing is stored into the
map.  The returned message is the error; there is no success case at this
call site. -/
def jsonUnmarshalIntoMapValue (_input : String) : Option String :=
  some "json: Unmarshal(non-pointer map[string]interface)"

/-- The GET branch of Gateway.GraphQLHandler (http.go lines 21-88): read the
query parameter (its absence is a 422), attempt to unmarshal the variables
parameter into a by-value map (which always fails, setting the miscopied
payload error message), keep the untouched empty variables map, read the
operation name, then reject on a payload error or an empty query and
otherwise proceed to execution. -/
def graphQLHandlerGet (queryParam variablesParam operationNameParam : Option String) :
    HandlerOutcome :=
  match queryParam with
  | some q =>
    let payloadErr : Option String :=
      match variablesParam with
      | some variableInput =>
        match jsonUnmarshalIntoMapValue variableInput with
        | some _ => some "must include query as parameter"
        | none => none
      | none => none
    let payloadVariables : List (String × JSON) := []
    let payloadOperationName := operationNameParam.getD ""
    match payloadErr with
    | some msg => HandlerOutcome.clientError 422 msg
    | none =>
      if q == "" then
        HandlerOutcome.clientError 422 "Could not find a query in request payload."
      else
        HandlerOutcome.executed
          { query := q
            variableValues := payloadVariables
            operationName := payloadOperationName }
  | none => HandlerOutcome.clientError 422 "must include query as parameter"

/-- C9: a GET request carrying the JSON-object variables parameter of the
repository test named Object variables succeeds is rejected with 422, because
the by-value Unmarshal destination makes every unmarshal fail; the same
request without a variables parameter proceeds to execution, so the
rejection is on account of the variables, contradicting the claim that a
JSON-object value is accepted. -/
theorem c9_object_variables_rejected :
    graphQLHandlerGet (some "\x7ballUsers\x7d") (some "\x7b\"foo\":2\x7d") none =
      HandlerOutcome.clientError 422 "must include query as parameter" ∧
    graphQLHandlerGet (some "\x7ballUsers\x7d") none none =
      HandlerOutcome.executed
        { query := "\x7ballUsers\x7d", variableValues := [], operationName := "" } := by
  constructor
  · rfl
  · rfl

/-- Lookup in an association list of string lists (FieldURLMap and the
type-to-fields maps); first match wins. -/
def lookupS : List (String × List String) → String → Option (List String)
  | [], _ => none
  | (k, v) :: rest, key => if k == key then some v else lookupS rest key

/-- Assignment into an association list of string lists. -/
def mapSetS : List (String × List String) → String → List String →
    List (String × List String)
  | [], k, v => [(k, v)]
  | (k1, v1) :: rest, k, v =>
    if k1 == k then (k, v) :: rest else (k1, v1) :: mapSetS rest k v

/-- Go strings.HasPrefix, written over the character lists so that it
evaluates by kernel reduction. -/
def strStartsWith (p s : String) : Bool :=
  p.data.isPrefixOf s.data

/-- A graphql.RemoteSchema as New consumes it: the service URL and the
schema reduced to the map from type name to its field names, the only schema
content the embedded gateway construction reads. -/
structure RemoteSchema where
  url : String
  schema : List (String × List String)

/-- FieldURLMap.RegisterURL (gateway.go lines 204-222) for one location:
append the location to the list at key parent.field, creating the list when
the key is new. -/
def fieldURLMapRegisterURL (m : List (String × List String))
    (parent field url : String) : List (String × List String) :=
  let key := parent ++ "." ++ field
  match lookupS m key with
  | none => m ++ [(key, [url])]
  | some prev => mapSetS m key (prev ++ [url])

/-- FieldURLMap.Concat (gateway.go lines 186-202): key-wise concatenation of
the location lists. -/
def fieldURLMapConcat (m other : List (String × List String)) :
    List (String × List String) :=
  other.foldl (fun m kv =>
    match lookupS m kv.1 with
    | some prevValue => mapSetS m kv.1 (prevValue ++ kv.2)
    | none => m ++ [kv]) m

/-- fieldURLs (gateway.go lines 135-164): register every field of every type
of every schema at the schema URL; when stripInternal is set, types whose
name starts with two underscores and the double-underscore fields of Query
are skipped. -/
def fieldURLs (schemas : List RemoteSchema) (stripInternal : Bool) :
    List (String × List String) :=
  schemas.foldl (fun locations remoteSchema =>
    remoteSchema.schema.foldl (fun locations typeDef =>
      if !(strStartsWith "__" typeDef.1) || !stripInternal then
        typeDef.2.foldl (fun locations fieldName =>
          if !(typeDef.1 == "Query" && strStartsWith "__" fieldName) then
            fieldURLMapRegisterURL locations typeDef.1 fieldName remoteSchema.url
          else if !stripInternal then
            fieldURLMapRegisterURL locations typeDef.1 fieldName remoteSchema.url
          else locations) locations
      else locations) locations) []

/-- The gateway-internal schema (schema.go lines 281-296): a Query type with
the single field _apiVersion, registered at the internal sentinel location. -/
def internalSchema : RemoteSchema :=
  { url := "🎉", schema := [("Query", ["_apiVersion"])] }

/-- Modelled from the spec: mergeSchemas (merge.go, not among the provided
sources) unions the field sets of same-named types across the source
schemas; the conflict cases concern field signatures, which the reduced
schema model does not carry, so the model merges by field-name union. -/
def mergeSchemas (schemas : List (List (String × List String))) :
    Except String (List (String × List String)) :=
  Except.ok (schemas.foldl (fun acc schema =>
    schema.foldl (fun acc typeDef =>
      match lookupS acc typeDef.1 with
      | none => acc ++ [typeDef]
      | some fields =>
        mapSetS acc typeDef.1
          (fields ++ typeDef.2.filter (fun f => !(fields.contains f)))) acc) [])

/-- The Gateway value New assembles (gateway.go lines 19-29), reduced to the
fields the embedded construction reads and writes; the planner and executor
defaults carry no data relevant to construction. -/
structure Gateway where
  sources : List RemoteSchema
  merger : List (List (String × List String)) →
    Except String (List (String × List String))
  schema : List (String × List String)
  fieldURLs : List (String × List String)

/-- New (gateway.go lines 55-101): an empty source list is rejected before
anything else; otherwise the default gateway is built, passed through every
configurator in order, the field URLs are computed from the sources plus the
internal schema, the schemas are merged by the (possibly reconfigured)
merger, and the computed values are assigned. -/
def New (sources : List RemoteSchema) (configs : List (Gateway → Gateway)) :
    Except String Gateway :=
  if sources.length == 0 then
    throw "a gateway must have at least one schema"
  else
    let gateway : Gateway :=
      { sources := sources, merger := mergeSchemas, schema := [], fieldURLs := [] }
    let gateway := configs.foldl (fun g config => config g) gateway
    let urls := fieldURLMapConcat (fieldURLs sources true) (fieldURLs [internalSchema] false)
    let sourceSchemas := sources.map RemoteSchema.schema ++ [internalSchema.schema]
    match gateway.merger sourceSchemas with
    | Except.error err => throw err
    | Except.ok merged =>
      Except.ok { gateway with schema := merged, fieldURLs := urls }

/-- Whether gateway construction succeeded. -/
def newSucceeded (e : Except String Gateway) : Bool :=
  match e with
  | Except.ok _ => true
  | Except.error _ => false

/-- C10: New with an empty source list returns the error a gateway must have
at least one schema and no gateway value, whatever configurators are
supplied; conversely a successful construction implies at least one source
schema. -/
theorem c10_new_requires_a_source :
    (∀ configs : List (Gateway → Gateway),
      New [] configs = Except.error "a gateway must have at least one schema") ∧
    (∀ (sources : List RemoteSchema) (configs : List (Gateway → Gateway)),
      newSucceeded (New sources configs) = true → sources ≠ []) := by
  constructor
  · intro configs
    rfl
  · intro sources configs h hempty
    subst hempty
    simp [New, newSucceeded, throw, throwThe, MonadExceptOf.throw] at h

/-- A one-type source schema at a concrete URL. -/
def c10Source : RemoteSchema :=
  { url := "url1", schema := [("Query", ["allUsers"])] }

/-- Witness for C10 at concrete inputs: construction with no sources errors,
and a successful construction from one source certifies a non-empty source
list through the theorem. -/
theorem c10_new_requires_a_source_witness :
    New [] [] = Except.error "a gateway must have at least one schema" ∧
    newSucceeded (New [c10Source] []) = true ∧ ([c10Source] : List RemoteSchema) ≠ [] :=
  ⟨c10_new_requires_a_source.1 [], by rfl,
    c10_new_requires_a_source.2 [c10Source] [] (by rfl)⟩
